import Mathlib

/-!
Verification of `src/build_free_corpus.py` (free-corpus builder).

Text is modelled as `List Char` (Python unicode strings are sequences of code
points).  Each regex substitution of `normalize_text` is compiled by hand into
a one-pass, structurally recursive scanner that reproduces the left-to-right,
non-overlapping, greedy-with-backtracking semantics of Python `re.sub` on the
corresponding pattern; the derivation of each scanner from its pattern is
documented at the definition.
-/

namespace Corpus

/-- The letter class `[A-Za-zÁÉÍÓÚÜÑáéíóúüñ]` used by the markup-stripping and
letter-rejoin regexes of `normalize_text`. -/
def isLetterEs (c : Char) : Bool :=
  ('A' ≤ c && c ≤ 'Z') || ('a' ≤ c && c ≤ 'z')
  || c == 'Á' || c == 'É' || c == 'Í' || c == 'Ó' || c == 'Ú' || c == 'Ü' || c == 'Ñ'
  || c == 'á' || c == 'é' || c == 'í' || c == 'ó' || c == 'ú' || c == 'ü' || c == 'ñ'

/-- Python's `\s` (and the character set stripped by `str.strip()`):
ASCII whitespace plus the Unicode space characters. -/
def isPySpace (c : Char) : Bool :=
  c == ' ' || c == '\t' || c == '\n' || c == '\r' || c == '\x0b' || c == '\x0c'
  || c == '\x1c' || c == '\x1d' || c == '\x1e' || c == '\x1f' || c == '\x85'
  || c == '\u00A0' || c == '\u1680' || ('\u2000' ≤ c && c ≤ '\u200A')
  || c == '\u2028' || c == '\u2029' || c == '\u202F' || c == '\u205F' || c == '\u3000'

/-- Python's `\w` (word character), restricted to the character repertoire this
program manipulates: ASCII alphanumerics, underscore, and the accented class of
its regexes.  (Python's Unicode `\w` also covers further letters; none occur in
the patterns or texts reasoned about here.) -/
def isWordChar (c : Char) : Bool :=
  ('0' ≤ c && c ≤ '9') || ('A' ≤ c && c ≤ 'Z') || ('a' ≤ c && c ≤ 'z')
  || c == '_' || isLetterEs c

/-- The class `[ \t]` of the horizontal-whitespace-collapsing regex. -/
def isSpTab (c : Char) : Bool := c == ' ' || c == '\t'

/-- The characters removed by the chained `str.replace` calls of
`normalize_text`: soft hyphen, zero-width space / non-joiner / joiner,
byte order mark, carriage return. -/
def invisChars : List Char := ['\u00AD', '\u200B', '\u200C', '\u200D', '\uFEFF', '\r']

/-- Step 1 of `normalize_text`: the six chained `.replace(c, '')` calls.
Removing every occurrence of each of six distinct characters is the same as
filtering all of them out in one pass. -/
def stripInvis (s : List Char) : List Char :=
  s.filter (fun c => !(invisChars.contains c))

/-- Step 2, `re.sub(r'-\s*\n\s*', '', s)`, as a scanner.  At a `-`, the greedy
`\s*\n\s*` matches exactly when the maximal whitespace run that follows
contains a newline, and then (first `\s*` backtracking to the last newline,
trailing `\s*` greedy) the whole run is consumed together with the hyphen.
`skipWs = true` means the scanner is inside the whitespace run of a match
still being consumed. -/
def dehyphGo (skipWs : Bool) : List Char → List Char
  | [] => []
  | c :: rest =>
    if skipWs && isPySpace c then dehyphGo true rest
    else if c = '-' && (rest.takeWhile isPySpace).contains '\n' then dehyphGo true rest
    else c :: dehyphGo false rest

def dehyph (s : List Char) : List Char := dehyphGo false s

/-- Step 3a, `re.sub(r'([A-Za-z...]{2,})>', r'\1', s)`, as a scanner.  A match
keeps the (maximal, hence ≥ 2) letter run and deletes the `>` after it; the
scan resumes after the `>`.  Since the letters are kept verbatim, the effect
is: a `>` is deleted exactly when at least two letters immediately precede it,
counted since the previous deletion or non-letter (`cnt` carries that count). -/
def stripMarkGo (cnt : Nat) : List Char → List Char
  | [] => []
  | c :: rest =>
    if isLetterEs c then c :: stripMarkGo (cnt + 1) rest
    else if c = '>' ∧ 2 ≤ cnt then stripMarkGo 0 rest
    else c :: stripMarkGo 0 rest

def stripMark (s : List Char) : List Char := stripMarkGo 0 s

/-- Step 3b, `.replace('<', '').replace('>', '')`: every remaining angle
bracket is deleted. -/
def removeAngles (s : List Char) : List Char :=
  s.filter (fun c => !(c == '<' || c == '>'))

/-- Step 4, `re.sub(r'\n{2,}', '\n', s)`: every maximal run of newlines
collapses to a single newline (a run of length 1 is not matched but is also
left as a single newline, so the scanner needs no case split on run length). -/
def collapseNl : List Char → List Char
  | [] => []
  | c :: rest =>
    if c = '\n' ∧ rest.head? = some '\n' then collapseNl rest
    else c :: collapseNl rest

/-- For the letter-rejoin regex `(?:[L]\s){2,}[L]`: the largest `m` such that
the list starts with `m` repetitions of letter-whitespace each followed by a
further letter; the possible rep counts of a match starting here are `2..m`. -/
def altCount : List Char → Nat
  | a :: b :: rest =>
    if isLetterEs a = true ∧ isPySpace b = true ∧ rest.head?.any isLetterEs = true
    then altCount rest + 1
    else 0
  | _ => 0

/-- The leading `(?:(?<=\b)|(?<=\W))` of the letter-rejoin regex.  The group
starts with a letter (a word character), so at the start of the string `\b`
holds, and otherwise the disjunction holds exactly when the preceding
character is a non-word character. -/
def lookbehindOk : Option Char → Bool
  | none => true
  | some p => !isWordChar p

/-- The trailing `(?=\b|\W)` after the final letter of a match with `m` reps
(which ends at index `2*m`): it holds exactly when the next character is
absent or a non-word character. -/
def laOkAt (s : List Char) (m : Nat) : Bool :=
  match (s.drop (2 * m + 1)).head? with
  | none => true
  | some d => !isWordChar d

/-- Step 5, `re.sub(r'(?:(?<=\b)|(?<=\W))((?:[L]\s){2,}[L])(?=\b|\W)',
lambda m: m.group(0).replace(' ', ''), s)`, as a scanner.  At a position with
`budget = 0` the engine attempts a match: the greedy `{2,}` first tries
`m = altCount` reps; the lookahead after rep count `j < m` sees the next
whitespace separator (a non-word character) and always holds, so the match
uses `m` reps if `laOkAt` holds there and otherwise backtracks once to
`m - 1` (possible only when `m ≥ 3`).  A match spans `2*k + 1` characters, of
which the first is emitted here and the remaining `2*k` are consumed in
budget mode, where the replacement deletes the `' '` characters (only actual
spaces: `.replace(' ', '')`) and keeps everything else.  `prev` is the
character preceding the scan position in the original string, as used by the
lookbehind. -/
def joinGo (prev : Option Char) (budget : Nat) : List Char → List Char
  | [] => []
  | c :: rest =>
    if budget = 0 then
      if isLetterEs c = true ∧ lookbehindOk prev = true ∧ 2 ≤ altCount (c :: rest) then
        if 3 ≤ altCount (c :: rest) ∨ laOkAt (c :: rest) (altCount (c :: rest)) = true then
          c :: joinGo (some c)
            (2 * (if laOkAt (c :: rest) (altCount (c :: rest)) then altCount (c :: rest)
                  else altCount (c :: rest) - 1)) rest
        else c :: joinGo (some c) 0 rest
      else c :: joinGo (some c) 0 rest
    else (if c = ' ' then [] else [c]) ++ joinGo (some c) (budget - 1) rest

def joinLetters (s : List Char) : List Char := joinGo none 0 s

/-- Step 6, `re.sub(r'[ \t]{2,}', ' ', s)`, as a scanner: a maximal run of two
or more spaces/tabs becomes one `' '`; a lone space or tab stays itself.
`inRun = true` records that the current space/tab had a space/tab right before
it inside the run being consumed. -/
def collapseSpGo (inRun : Bool) : List Char → List Char
  | [] => []
  | c :: rest =>
    if isSpTab c then
      if rest.head?.any isSpTab then collapseSpGo true rest
      else (if inRun then ' ' else c) :: collapseSpGo false rest
    else c :: collapseSpGo false rest

def collapseSp (s : List Char) : List Char := collapseSpGo false s

/-- `normalize_text` from `src/build_free_corpus.py`: returns falsy (empty)
input unchanged, otherwise applies the six cleanup steps in order. -/
def normalize_text (s : List Char) : List Char :=
  if s = [] then s
  else collapseSp (joinLetters (collapseNl (removeAngles (stripMark (dehyph (stripInvis s))))))

/-- The marker `" …"` appended by `truncate`: a space and the horizontal
ellipsis character. -/
def ellipsisMarker : List Char := (" …").data

/-- `truncate` from `src/build_free_corpus.py`:
`s if len(s) <= n else s[:n] + " …"`. -/
def truncate (s : List Char) (n : Nat) : List Char :=
  if s.length ≤ n then s else s.take n ++ ellipsisMarker

/-- `content.replace("\n", " ")` as applied to the read-back text before
truncation (a single-character replacement is a map). -/
def flattenNl (s : List Char) : List Char :=
  s.map (fun c => if c = '\n' then ' ' else c)

/-- The snippet stored in the JSON index for a document whose text artifact
has content `content`: `truncate(content.replace("\n", " "), max_chars)`. -/
def mkSnippet (content : List Char) (n : Nat) : List Char :=
  truncate (flattenNl content) n

/-- The `RuntimeError` raised by `fetch_pdf_bytes` on exhausted retries:
`f"Descarga fallida: {url} -> {last}"` carries the URL and the last
underlying exception (`none` only when zero attempts were allowed). -/
structure FetchFail (ε : Type) where
  url : List Char
  last : Option ε
deriving DecidableEq, Repr

/-- The retry loop of `fetch_pdf_bytes`.  The network is modelled by an oracle
`net` giving the outcome of attempt `i` (either the response bytes after
`raise_for_status`, or the exception raised by the attempt).  The loop makes
at most `fuel` attempts starting at attempt index `i`; after each failed
attempt it sleeps `slp * (i + 1)` seconds (the sleeps are returned as a list,
most recent last), remembers the exception in `last`, and continues. -/
def fetchGo {ε α : Type} (net : Nat → Except ε α) (slp : ℚ) :
    Nat → Nat → Option ε → List ℚ → Except (Option ε) α × List ℚ
  | 0, _, last, acc => (Except.error last, acc)
  | fuel + 1, i, _last, acc =>
    match net i with
    | Except.ok b => (Except.ok b, acc)
    | Except.error e => fetchGo net slp fuel (i + 1) (some e) (acc ++ [slp * ((i : ℚ) + 1)])

/-- `fetch_pdf_bytes(url, timeout, retries, sleep)` from
`src/build_free_corpus.py` (the timeout is part of the per-attempt outcome
`net`).  Returns the bytes of the first successful attempt, or a `FetchFail`
with the URL and last cause after `retries` failed attempts, paired with the
list of sleep durations performed. -/
def fetch_pdf_bytes {ε α : Type} (net : Nat → Except ε α) (url : List Char)
    (retries : Nat) (slp : ℚ) : Except (FetchFail ε) α × List ℚ :=
  match fetchGo net slp retries 0 none [] with
  | (Except.ok b, sl) => (Except.ok b, sl)
  | (Except.error last, sl) => (Except.error ⟨url, last⟩, sl)

/-! ## The main pipeline

`main` is modelled over an environment that supplies everything the spec
declares out of scope or that comes from external libraries: the loaded
manifest (pandas, with cells already passed through `str(...)`), the previous
metadata CSV and JSON index, the filesystem of text artifacts, the network,
the PDF extractor (PyMuPDF), the hashes (hashlib), date formatting (pandas)
and the date-bucketed path construction (`date_parts`/`safe_filename`,
out of scope per the spec).  The orchestration logic itself — column check,
done-set, skip rules, rewrite policy, error isolation, record/snippet
accumulation — is translated directly from `main`. -/

/-- One manifest row from `df.to_dict("records")`: column name ↦ cell, the
cell already converted by `str(...)`. -/
abbrev Row := List (List Char × List Char)

/-- `r.get(col, "")`. -/
def rget (r : Row) (c : List Char) : List Char := (List.lookup c r).getD []

/-- Python `str.strip()`. -/
def pyStrip (s : List Char) : List Char :=
  ((s.dropWhile isPySpace).reverse.dropWhile isPySpace).reverse

/-- The guard `if not url or url.lower().startswith("nan"): continue` of the
row loop: the stripped URL is empty, or its lowercasing starts with `nan`. -/
abbrev nanSkip (u : List Char) : Prop :=
  u = [] ∨ (u.map Char.toLower).take 3 = ("nan").data

/-- `txt_path.stat().st_size` of a text file written as UTF-8: the byte
length of its content. -/
def utf8Len (s : List Char) : Nat := (s.map Char.utf8Size).sum

/-- One row of `index_texts.csv`. -/
structure MetaRecord where
  date : List Char
  pdf_url : List Char
  text_relpath : List Char
  chars : Nat
  sha256_bytes : List Char
deriving DecidableEq, Repr

/-- One entry of `docs/docs_index.json`. -/
structure DocEntry where
  id : List Char
  date : List Char
  pdf_url : List Char
  text_relpath : List Char
  snippet : List Char
deriving DecidableEq, Repr

/-- The recognized command-line options of `main` that the modelled logic
reads (paths and the sheet selector are folded into the environment). -/
structure Config where
  colUrl : List Char
  colDate : List Char
  limit : Nat
  resume : Bool
  rewrite : Bool
  maxPages : Nat
  maxChars : Nat

/-- The external world of one run. `metaCsv` is the parsed previous metadata
log (`none` = file absent); `docsJson` is the parsed previous JSON index
(`none` = absent or unparseable, both of which reset `docs` to `[]`);
`fs0` maps text-artifact paths to their content; `net` gives the outcome of
`fetch_pdf_bytes(url)` for each URL; `extract` the outcome of
`extract_text_from_pdf_bytes(bytes, max_pages)`; `sha256hex`/`md5hex` the two
hashes; `fmtDate` is `format_date` (pandas-backed); `pathOf d_fmt url` is the
repo-relative text path built from the date bucket and sanitized filename. -/
structure Env where
  columns : List (List Char)
  rows : List Row
  metaCsv : Option (List MetaRecord)
  docsJson : Option (List DocEntry)
  fs0 : List (List Char × List Char)
  net : List Char → Except (List Char) (List Nat)
  extract : List Nat → Nat → Except (List Char) (List Char)
  sha256hex : List Nat → List Char
  md5hex : List Char → List Char
  fmtDate : List Char → List Char
  pathOf : List Char → List Char → List Char

/-- The mutable state of a run: the text-artifact store, the metadata records
appended (each flushed on append), the accumulated snippet collection, and
the observable traces — URLs passed to `fetch_pdf_bytes`, number of
`extract_text_from_pdf_bytes` calls, and URLs printed in `[ERROR]` lines. -/
structure RunState where
  fs : List (List Char × List Char)
  meta : List MetaRecord
  docs : List DocEntry
  fetches : List (List Char)
  extracts : Nat
  errors : List (List Char)
deriving DecidableEq, Repr

def fsLookup (fs : List (List Char × List Char)) (p : List Char) : Option (List Char) :=
  List.lookup p fs

def fsWrite (fs : List (List Char × List Char)) (p : List Char) (c : List Char) :
    List (List Char × List Char) :=
  (p, c) :: fs

/-- The condition `not txt_path.exists() or txt_path.stat().st_size == 0`
(evaluated only when `--rewrite` is off). -/
def needFresh (fs : List (List Char × List Char)) (path : List Char) : Bool :=
  match fsLookup fs path with
  | none => true
  | some c => utf8Len c == 0

/-- The tail of a successful row: `txt_path.stat().st_size`, the metadata
record appended to the CSV (and flushed), the read-back of the text file and
the snippet entry appended to `docs`. -/
def finishRow (cfg : Config) (env : Env) (st : RunState)
    (fs' : List (List Char × List Char)) (url d_fmt path sha : List Char) : RunState :=
  let content := (fsLookup fs' path).getD []
  { st with
    fs := fs'
    meta := st.meta ++ [{ date := d_fmt, pdf_url := url, text_relpath := path,
                          chars := utf8Len content, sha256_bytes := sha }]
    docs := st.docs ++ [{ id := env.md5hex url, date := d_fmt, pdf_url := url,
                          text_relpath := path,
                          snippet := mkSnippet content cfg.maxChars }] }

/-- The `try:` body of one row after the skip guards: fetch (traced), hash,
extract/normalize/write when `--rewrite` is set or the artifact is missing or
empty, then metadata and snippet.  Any fetch or extraction failure is caught
by the `except` clause, which prints `[ERROR] url` and moves on. -/
def processFetch (cfg : Config) (env : Env) (st : RunState) (r : Row)
    (url : List Char) : RunState :=
  let d_fmt := env.fmtDate (rget r cfg.colDate)
  let path := env.pathOf d_fmt url
  let st1 : RunState := { st with fetches := st.fetches ++ [url] }
  match env.net url with
  | Except.error _ => { st1 with errors := st1.errors ++ [url] }
  | Except.ok bs =>
    let sha := env.sha256hex bs
    if cfg.rewrite || needFresh st1.fs path then
      let st2 : RunState := { st1 with extracts := st1.extracts + 1 }
      match env.extract bs cfg.maxPages with
      | Except.error _ => { st2 with errors := st2.errors ++ [url] }
      | Except.ok raw =>
        finishRow cfg env st2 (fsWrite st2.fs path (normalize_text raw)) url d_fmt path sha
    else
      finishRow cfg env st1 st1.fs url d_fmt path sha

/-- One iteration of the row loop of `main`: the empty/`nan` guard, the
resume guard, then the fetch/extract/persist body. -/
def processRow (cfg : Config) (env : Env) (done : List (List Char))
    (st : RunState) (r : Row) : RunState :=
  let url := pyStrip (rget r cfg.colUrl)
  if nanSkip url then st
  else if cfg.resume = true ∧ url ∈ done then st
  else processFetch cfg env st r url

/-- The done-set: previously logged `pdf_url`s, loaded only when `--resume`
is given and the metadata CSV exists. -/
def doneSet (cfg : Config) (env : Env) : List (List Char) :=
  match cfg.resume, env.metaCsv with
  | true, some log => log.map (fun m => m.pdf_url)
  | _, _ => []

/-- `rows[:total]` with `total = len(rows) if limit == 0 else min(limit, len(rows))`. -/
def takenRows (cfg : Config) (env : Env) : List Row :=
  env.rows.take (if cfg.limit = 0 then env.rows.length else min cfg.limit env.rows.length)

/-- The state before the first row: prior artifacts on disk, no records
appended yet, `docs` preloaded from the previous JSON index if it parses. -/
def initState (env : Env) : RunState :=
  { fs := env.fs0, meta := [], docs := (env.docsJson).getD []
    fetches := [], extracts := 0, errors := [] }

/-- `main` from `src/build_free_corpus.py`: `raise SystemExit(...)` when the
URL column is absent from the loaded manifest (the `Except.error` carries the
descriptive message), otherwise the row loop over the limited manifest; the
final state also describes the files written at the end (the appended CSV and
the wholesale-rewritten JSON index). -/
def mainRun (cfg : Config) (env : Env) : Except (List Char) RunState :=
  if cfg.colUrl ∈ env.columns then
    Except.ok ((takenRows cfg env).foldl (processRow cfg env (doneSet cfg env)) (initState env))
  else
    Except.error (("No encuentro la columna URL ").data ++ cfg.colUrl)

instance {ε α : Type} [DecidableEq ε] [DecidableEq α] : DecidableEq (Except ε α) := fun x y =>
  match x, y with
  | Except.ok a, Except.ok b =>
    if h : a = b then isTrue (by rw [h]) else isFalse (fun hc => h (Except.ok.inj hc))
  | Except.error a, Except.error b =>
    if h : a = b then isTrue (by rw [h]) else isFalse (fun hc => h (Except.error.inj hc))
  | Except.ok _, Except.error _ => isFalse (fun hc => Except.noConfusion hc)
  | Except.error _, Except.ok _ => isFalse (fun hc => Except.noConfusion hc)

/-! ## Lemmas about the retry loop -/

/-- The backoff sleeps `slp * s, slp * (s+1), …` for `n` consecutive attempt
numbers starting at `s`. -/
def backoffs (slp : ℚ) (s n : Nat) : List ℚ :=
  (List.range' s n).map (fun k : Nat => slp * (k : ℚ))

theorem backoffs_succ (slp : ℚ) (s n : Nat) :
    backoffs slp s (n + 1) = slp * (s : ℚ) :: backoffs slp (s + 1) n := by
  simp [backoffs, List.range'_succ]

theorem fetchGo_step_err {ε α : Type} (net : Nat → Except ε α) (slp : ℚ)
    (f i : Nat) (last : Option ε) (acc : List ℚ) (e : ε)
    (h : net i = Except.error e) :
    fetchGo net slp (f + 1) i last acc
      = fetchGo net slp f (i + 1) (some e) (acc ++ [slp * ((i : ℚ) + 1)]) := by
  simp [fetchGo, h]

theorem fetchGo_step_ok {ε α : Type} (net : Nat → Except ε α) (slp : ℚ)
    (f i : Nat) (last : Option ε) (acc : List ℚ) (b : α)
    (h : net i = Except.ok b) :
    fetchGo net slp (f + 1) i last acc = (Except.ok b, acc) := by
  simp [fetchGo, h]

/-- If attempts `start..start+j-1` fail and attempt `start+j` succeeds within
the fuel, the loop returns those bytes after sleeping `slp * n` for each
attempt number `n` of the failed attempts. -/
theorem fetchGo_ok {ε α : Type} (net : Nat → Except ε α) (slp : ℚ) :
    ∀ (fuel j start : Nat) (last : Option ε) (acc : List ℚ) (b : α),
      j < fuel →
      (∀ t, t < j → ∃ e, net (start + t) = Except.error e) →
      net (start + j) = Except.ok b →
      fetchGo net slp fuel start last acc =
        (Except.ok b, acc ++ backoffs slp (start + 1) j) := by
  intro fuel
  induction fuel with
  | zero =>
    intro j start last acc b hj
    exact absurd hj (Nat.not_lt_zero j)
  | succ f ih =>
    intro j start last acc b hj hfail hok
    cases j with
    | zero =>
      have hok0 : net start = Except.ok b := by simpa using hok
      simpa [backoffs] using fetchGo_step_ok net slp f start last acc b hok0
    | succ j' =>
      obtain ⟨e, he⟩ := hfail 0 (Nat.succ_pos j')
      have hstart : net start = Except.error e := by simpa using he
      have ih' := ih j' (start + 1) (some e) (acc ++ [slp * ((start : ℚ) + 1)]) b
        (by omega)
        (fun t ht => by
          obtain ⟨e', he'⟩ := hfail (t + 1) (by omega)
          refine ⟨e', ?_⟩
          rw [show start + 1 + t = start + (t + 1) from by omega]
          exact he')
        (by rw [show start + 1 + j' = start + (j' + 1) from by omega]; exact hok)
      rw [fetchGo_step_err net slp f start last acc e hstart, ih', backoffs_succ,
        List.append_assoc, List.singleton_append]
      have hc : slp * ((start : ℚ) + 1) = slp * (((start + 1 : Nat) : ℚ)) := by
        push_cast
        ring
      rw [hc]

/-- If every attempt within the fuel fails, the loop exhausts the fuel,
sleeps `slp * n` for every attempt number `n`, and reports the exception of
the last attempt. -/
theorem fetchGo_err {ε α : Type} (net : Nat → Except ε α) (slp : ℚ) :
    ∀ (fuel start : Nat) (last : Option ε) (acc : List ℚ) (e : Nat → ε),
      1 ≤ fuel →
      (∀ t, t < fuel → net (start + t) = Except.error (e (start + t))) →
      fetchGo net slp fuel start last acc =
        (Except.error (some (e (start + fuel - 1))),
         acc ++ backoffs slp (start + 1) fuel) := by
  intro fuel
  induction fuel with
  | zero =>
    intro start last acc e h
    exact absurd h (by omega)
  | succ f ih =>
    intro start last acc e _ hfail
    have hstart : net start = Except.error (e start) := by simpa using hfail 0 (Nat.succ_pos f)
    have hc : slp * ((start : ℚ) + 1) = slp * (((start + 1 : Nat) : ℚ)) := by
      push_cast
      ring
    by_cases hf : f = 0
    · subst hf
      rw [fetchGo_step_err net slp 0 start last acc (e start) hstart]
      simp [fetchGo, backoffs_succ, backoffs, hc]
    · have ih' := ih (start + 1) (some (e start)) (acc ++ [slp * ((start : ℚ) + 1)]) e
        (by omega)
        (fun t ht => by
          have h := hfail (t + 1) (by omega)
          rw [show start + 1 + t = start + (t + 1) from by omega]
          exact h)
      rw [fetchGo_step_err net slp f start last acc (e start) hstart, ih', backoffs_succ,
        List.append_assoc, List.singleton_append, hc]
      rw [show start + 1 + f - 1 = start + (f + 1) - 1 from by omega]

/-! ## Concrete fixtures used by witnesses and counterexamples -/

/-- A small environment for concrete runs: one known column `url`, identity
date formatting, the URL itself as artifact path. -/
def envW : Env :=
  { columns := [("url").data]
    rows := []
    metaCsv := none
    docsJson := none
    fs0 := []
    net := fun _ => Except.error (("net down").data)
    extract := fun _ _ => Except.ok (("hola").data)
    sha256hex := fun _ => ("deadbeef").data
    md5hex := fun _ => ("id1").data
    fmtDate := fun d => d
    pathOf := fun _ u => u }

def cfgW : Config :=
  { colUrl := ("url").data, colDate := ("fecha").data, limit := 0
    resume := false, rewrite := false, maxPages := 0, maxChars := 5 }

/-! ## Claims -/

/-- C1 (counterexample): normalization is not idempotent.  For
`T = "x y  z"` the first application collapses the double space, which
exposes a new three-letter spaced run that only the second application
rejoins, so `normalize(normalize(T)) ≠ normalize(T)`. -/
theorem normalize_not_idempotent_cex :
    normalize_text (normalize_text (("x y  z").data)) ≠ normalize_text (("x y  z").data) := by
  decide

/-- C1 (amended): `normalize_text` is not idempotent for all texts — collapsing
runs of spaces (rule 6) can create a letter-spaced run that the rejoin rule
(rule 5) joins only on a second application: `normalize("x y  z") = "x y z"`
while `normalize("x y z") = "xyz"`.  The falsy/empty part of the guarantee
does hold: empty input is returned unchanged. -/
theorem normalize_second_pass_changes :
    normalize_text (("x y  z").data) = ("x y z").data ∧
    normalize_text (("x y z").data) = ("xyz").data ∧
    normalize_text ([] : List Char) = [] :=
  ⟨by decide, by decide, rfl⟩

/-- C3: the fetcher retries on any failed attempt (transport error or
non-success HTTP status, both surfacing as the attempt's exception) up to
`retries` attempts, sleeping the linear backoff `slp * attempt` after each
failed attempt; it returns the response bytes of the first successful
attempt, and after exhausting all attempts it raises an error carrying the
URL and the last underlying cause. -/
theorem fetch_retry_spec {ε α : Type} (net : Nat → Except ε α) (url : List Char)
    (retries : Nat) (slp : ℚ) :
    (∀ (j : Nat) (b : α), j < retries →
      (∀ t, t < j → ∃ e, net t = Except.error e) →
      net j = Except.ok b →
      fetch_pdf_bytes net url retries slp = (Except.ok b, backoffs slp 1 j)) ∧
    (∀ e : Nat → ε, 1 ≤ retries →
      (∀ t, t < retries → net t = Except.error (e t)) →
      fetch_pdf_bytes net url retries slp =
        (Except.error ⟨url, some (e (retries - 1))⟩, backoffs slp 1 retries)) := by
  constructor
  · intro j b hj hfail hok
    have h := fetchGo_ok net slp retries j 0 none [] b hj
      (fun t ht => by simpa using hfail t ht) (by simpa using hok)
    unfold fetch_pdf_bytes
    rw [h]
    simp
  · intro e hr hfail
    have h := fetchGo_err net slp retries 0 none [] e hr
      (fun t ht => by simpa using hfail t ht)
    unfold fetch_pdf_bytes
    rw [h]
    simp

/-- A network oracle whose second attempt (index 1) succeeds. -/
def netOkAt1 : Nat → Except (List Char) (List Nat) :=
  fun i => if i = 1 then Except.ok [7] else Except.error (("boom").data)

/-- A network oracle that always fails. -/
def netDown : Nat → Except (List Char) (List Nat) :=
  fun _ => Except.error (("boom").data)

theorem fetch_retry_spec_witness :
    fetch_pdf_bytes netOkAt1 (("u").data) 3 2 = (Except.ok [7], [2]) ∧
    fetch_pdf_bytes netDown (("u").data) 3 2
      = (Except.error ⟨("u").data, some (("boom").data)⟩, [2, 4, 6]) := by
  constructor
  · have h := (fetch_retry_spec netOkAt1 (("u").data) 3 2).1 1 [7] (by omega)
      (fun t ht => by
        interval_cases t
        exact ⟨("boom").data, rfl⟩)
      (by decide)
    rw [h]
    norm_num [backoffs, List.range']
  · have h := (fetch_retry_spec netDown (("u").data) 3 2).2 (fun _ => ("boom").data)
      (by omega) (fun t ht => rfl)
    rw [h]
    norm_num [backoffs, List.range']

/-- C9: the stored snippet of a document whose flattened text has more than
`max-chars` characters is exactly the first `max-chars` characters of the
flattened text followed by the ellipsis marker `" …"`; a document whose
flattened text has at most `max-chars` characters gets the full flattened
text as its snippet. -/
theorem snippet_truncation (content : List Char) (n : Nat) :
    ((flattenNl content).length ≤ n → mkSnippet content n = flattenNl content) ∧
    (n < (flattenNl content).length →
      mkSnippet content n = (flattenNl content).take n ++ ellipsisMarker ∧
      ((flattenNl content).take n).length = n) := by
  constructor
  · intro h
    simp [mkSnippet, truncate, h]
  · intro h
    constructor
    · simp [mkSnippet, truncate, Nat.not_le.mpr h]
    · simp [List.length_take]
      omega

theorem snippet_truncation_witness :
    mkSnippet (("ab\ncd").data) 3 = ("ab ").data ++ ellipsisMarker ∧
    mkSnippet (("ab").data) 3 = ("ab").data := by
  constructor
  · have h := (snippet_truncation (("ab\ncd").data) 3).2 (by decide)
    rw [h.1]
    decide
  · have h := (snippet_truncation (("ab").data) 3).1 (by decide)
    rw [h]
    decide

/-- C10: a manifest row whose URL cell, stringified and stripped, is empty or
begins (case-insensitively) with `nan` is skipped before fetching: the row
loop leaves the state — artifacts, metadata, snippets, fetch trace —
completely unchanged.  This includes genuine URLs that merely start with the
letters `nan`. -/
theorem nan_url_skip (cfg : Config) (env : Env) (done : List (List Char))
    (st : RunState) (r : Row) (h : nanSkip (pyStrip (rget r cfg.colUrl))) :
    processRow cfg env done st r = st := by
  simp [processRow, h]

theorem nan_url_skip_witness :
    processRow cfgW envW [] (initState envW)
      [(("url").data, (" NanoTech.pdf ").data)] = initState envW ∧
    processRow cfgW envW [] (initState envW)
      [(("url").data, ("   ").data)] = initState envW :=
  ⟨nan_url_skip cfgW envW [] (initState envW) _ (by decide),
   nan_url_skip cfgW envW [] (initState envW) _ (by decide)⟩

/-- A row is left entirely unprocessed when the empty/`nan` guard fires or
when resume mode finds its URL in the done-set. -/
theorem processRow_eq_self (cfg : Config) (env : Env) (done : List (List Char))
    (st : RunState) (r : Row)
    (h : nanSkip (pyStrip (rget r cfg.colUrl)) ∨
      (cfg.resume = true ∧ pyStrip (rget r cfg.colUrl) ∈ done)) :
    processRow cfg env done st r = st := by
  rcases h with h | h
  · simp [processRow, h]
  · by_cases hn : nanSkip (pyStrip (rget r cfg.colUrl))
    · simp [processRow, hn]
    · simp [processRow, hn, h]

/-- C5: resume correctness.  If resume mode is on, a previous metadata log
exists, and (with the URL column present so the run starts) every limited
manifest row's stripped URL is among the logged `pdf_url`s, then the run ends
in exactly the initial state: zero fetch calls and zero appended metadata
records.  Moreover any single row whose URL is in the loaded done-set is
skipped entirely — no fetch, no hash, no state change. -/
theorem resume_zero_work (cfg : Config) (env : Env) (log : List MetaRecord)
    (hres : cfg.resume = true) (hcsv : env.metaCsv = some log)
    (hcol : cfg.colUrl ∈ env.columns)
    (hall : ∀ r ∈ takenRows cfg env,
      pyStrip (rget r cfg.colUrl) ∈ log.map (fun m => m.pdf_url)) :
    (mainRun cfg env = Except.ok (initState env) ∧
      (initState env).fetches = [] ∧ (initState env).meta = []) ∧
    (∀ (done : List (List Char)) (st : RunState) (r : Row),
      pyStrip (rget r cfg.colUrl) ∈ done → processRow cfg env done st r = st) := by
  constructor
  · have hdone : doneSet cfg env = log.map (fun m => m.pdf_url) := by
      simp [doneSet, hres, hcsv]
    have hfold : ∀ (l : List Row) (st : RunState),
        (∀ r ∈ l, pyStrip (rget r cfg.colUrl) ∈ doneSet cfg env) →
        l.foldl (processRow cfg env (doneSet cfg env)) st = st := by
      intro l
      induction l with
      | nil => intro st _; rfl
      | cons a t ih =>
        intro st hl
        rw [List.foldl_cons,
          processRow_eq_self cfg env _ st a (Or.inr ⟨hres, hl a (by simp)⟩)]
        exact ih st (fun r hr => hl r (by simp [hr]))
    refine ⟨?_, rfl, rfl⟩
    unfold mainRun
    rw [if_pos hcol, hfold _ _ (fun r hr => by rw [hdone]; exact hall r hr)]
  · intro done st r hmem
    exact processRow_eq_self cfg env done st r (Or.inr ⟨hres, hmem⟩)

def env5 : Env :=
  { envW with
    rows := [[(("url").data, ("http://a/x.pdf").data)]]
    metaCsv := some [{ date := ("2020-01-01").data, pdf_url := ("http://a/x.pdf").data,
                       text_relpath := ("x.txt").data, chars := 4,
                       sha256_bytes := ("s").data }] }

def cfg5 : Config := { cfgW with resume := true }

theorem resume_zero_work_witness :
    mainRun cfg5 env5 = Except.ok (initState env5) ∧
    (initState env5).fetches = [] ∧ (initState env5).meta = [] :=
  (resume_zero_work cfg5 env5 _ rfl rfl (by decide) (by decide)).1

/-- C4 (counterexample): a run whose manifest lacks the configured **date**
column does not abort: the URL-column check is the only schema check, so the
row is fetched and a metadata record is appended even though the date column
is absent (its value defaults to the empty string). -/
def env4 : Env :=
  { envW with
    rows := [[(("url").data, ("http://a/x.pdf").data)]]
    net := fun _ => Except.ok [1] }

theorem missing_date_column_no_abort :
    (("fecha").data ∉ env4.columns) ∧
    (mainRun cfgW env4).toOption.map (fun res => (res.fetches, res.meta.length))
      = some ([("http://a/x.pdf").data], 1) :=
  ⟨by decide, by decide⟩

/-- C4 (amended): only the URL column is required: if the configured URL
column is absent from the loaded manifest, the run aborts via `SystemExit`
with a message naming the column, before any row is processed; the date
column is not checked and its absence does not abort the run. -/
theorem missing_url_column_aborts (cfg : Config) (env : Env)
    (h : cfg.colUrl ∉ env.columns) :
    mainRun cfg env
      = Except.error ((("No encuentro la columna URL ").data) ++ cfg.colUrl) := by
  unfold mainRun
  rw [if_neg h]

theorem missing_url_column_aborts_witness :
    mainRun { cfgW with colUrl := ("otra").data } envW
      = Except.error ((("No encuentro la columna URL ").data) ++ ("otra").data) :=
  missing_url_column_aborts { cfgW with colUrl := ("otra").data } envW (by decide)

/-- C2 (code bug): the accumulated snippet index does contain duplicate
entries for the same URL.  A run that loads a `docs_index.json` already
holding an entry for a URL and then processes a manifest row with that same
URL (resume off) appends a second entry: the final collection has two entries
with the same `pdf_url`, since `main` never de-duplicates `docs`. -/
def env2 : Env :=
  { envW with
    rows := [[(("url").data, ("http://a/x.pdf").data)]]
    net := fun _ => Except.ok [1]
    docsJson := some [{ id := ("old").data, date := ("d").data,
                        pdf_url := ("http://a/x.pdf").data,
                        text_relpath := ("p").data, snippet := ("s").data }] }

theorem snippet_index_duplicate_eval :
    (mainRun cfgW env2).toOption.map
      (fun res => res.docs.countP (fun d => d.pdf_url == ("http://a/x.pdf").data))
      = some 2 := by
  decide

theorem fsLookup_fsWrite (fs : List (List Char × List Char)) (p c : List Char) :
    fsLookup (fsWrite fs p c) p = some c := by
  simp [fsLookup, fsWrite, List.lookup]

/-- C6: skip-vs-rewrite policy for a processed row (guards passed, fetch
succeeded).  The text artifact is extracted, normalized and (re)written
exactly when rewrite mode is forced, or no file exists at the deterministic
path, or the existing file is empty (`cfg.rewrite || needFresh`); otherwise
extraction/normalization are skipped (`extracts` unchanged, `fs` unchanged)
and the pre-existing content is read back for the snippet instead of being
recomputed. -/
theorem skip_vs_rewrite_policy (cfg : Config) (env : Env) (done : List (List Char))
    (st : RunState) (r : Row) (url d_fmt path : List Char) (bs : List Nat)
    (hu : url = pyStrip (rget r cfg.colUrl))
    (hd : d_fmt = env.fmtDate (rget r cfg.colDate))
    (hp : path = env.pathOf d_fmt url)
    (hnan : ¬ nanSkip url)
    (hdone : ¬ (cfg.resume = true ∧ url ∈ done))
    (hnet : env.net url = Except.ok bs) :
    ((cfg.rewrite || needFresh st.fs path) = true →
      ∀ raw, env.extract bs cfg.maxPages = Except.ok raw →
        processRow cfg env done st r =
          { st with
            fs := fsWrite st.fs path (normalize_text raw)
            meta := st.meta ++ [{ date := d_fmt, pdf_url := url, text_relpath := path,
                                  chars := utf8Len (normalize_text raw),
                                  sha256_bytes := env.sha256hex bs }]
            docs := st.docs ++ [{ id := env.md5hex url, date := d_fmt, pdf_url := url,
                                  text_relpath := path,
                                  snippet := mkSnippet (normalize_text raw) cfg.maxChars }]
            fetches := st.fetches ++ [url]
            extracts := st.extracts + 1 }) ∧
    ((cfg.rewrite || needFresh st.fs path) = false →
      ∀ c, fsLookup st.fs path = some c →
        processRow cfg env done st r =
          { st with
            meta := st.meta ++ [{ date := d_fmt, pdf_url := url, text_relpath := path,
                                  chars := utf8Len c, sha256_bytes := env.sha256hex bs }]
            docs := st.docs ++ [{ id := env.md5hex url, date := d_fmt, pdf_url := url,
                                  text_relpath := path,
                                  snippet := mkSnippet c cfg.maxChars }]
            fetches := st.fetches ++ [url] }) := by
  subst hu hd hp
  constructor
  · intro hw raw hraw
    simp only [processRow, if_neg hnan, if_neg hdone, processFetch, hnet]
    simp only [hw, if_true]
    simp [hraw, finishRow, fsLookup_fsWrite]
  · intro hw c hc
    simp only [processRow, if_neg hnan, if_neg hdone, processFetch, hnet]
    simp only [hw, Bool.false_eq_true, if_false]
    simp [finishRow, hc]

def env6 : Env := { envW with net := fun _ => Except.ok [1] }

theorem skip_vs_rewrite_policy_witness :
    processRow cfgW env6 [] (initState env6) [(("url").data, ("u1").data)]
      = { fs := [(("u1").data, ("hola").data)],
          meta := [{ date := [], pdf_url := ("u1").data, text_relpath := ("u1").data,
                     chars := 4, sha256_bytes := ("deadbeef").data }],
          docs := [{ id := ("id1").data, date := [], pdf_url := ("u1").data,
                     text_relpath := ("u1").data, snippet := ("hola").data }],
          fetches := [("u1").data], extracts := 1, errors := [] } := by
  have h := (skip_vs_rewrite_policy cfgW env6 [] (initState env6)
      [(("url").data, ("u1").data)] (("u1").data) [] (("u1").data) [1]
      (by decide) (by decide) (by decide) (by decide) (by decide) rfl).1
      (by decide) (("hola").data) rfl
  rw [h]
  decide

def cfg7 : Config := cfgW

/-- Three manifest rows of which the middle URL fails to fetch. -/
def env7 : Env :=
  { envW with
    rows := [[(("url").data, ("http://a").data)],
             [(("url").data, ("http://b").data)],
             [(("url").data, ("http://c").data)]]
    net := fun u =>
      if u = ("http://b").data then Except.error (("down").data) else Except.ok [1] }

/-- C7: per-row atomicity and failure isolation.  If the fetch fails, the row
contributes no artifact write, no metadata record and no snippet entry — only
the fetch trace and an `[ERROR]` line with the offending URL — and the loop
moves on; likewise if extraction fails after a successful fetch.  A metadata
record is appended only after the whole fetch/extract/normalize/write
sequence succeeds: concretely, a three-row manifest whose middle URL fails to
fetch ends with exactly the two other metadata records and that one logged
error, with no abort. -/
theorem failure_isolation :
    (∀ (cfg : Config) (env : Env) (done : List (List Char)) (st : RunState)
        (r : Row) (url : List Char) (e : List Char),
      url = pyStrip (rget r cfg.colUrl) → ¬ nanSkip url →
      ¬ (cfg.resume = true ∧ url ∈ done) → env.net url = Except.error e →
      processRow cfg env done st r
        = { st with fetches := st.fetches ++ [url], errors := st.errors ++ [url] }) ∧
    (∀ (cfg : Config) (env : Env) (done : List (List Char)) (st : RunState)
        (r : Row) (url : List Char) (e : List Char) (bs : List Nat),
      url = pyStrip (rget r cfg.colUrl) → ¬ nanSkip url →
      ¬ (cfg.resume = true ∧ url ∈ done) → env.net url = Except.ok bs →
      (cfg.rewrite || needFresh st.fs (env.pathOf (env.fmtDate (rget r cfg.colDate)) url)) = true →
      env.extract bs cfg.maxPages = Except.error e →
      processRow cfg env done st r
        = { st with fetches := st.fetches ++ [url], extracts := st.extracts + 1,
                    errors := st.errors ++ [url] }) ∧
    ((mainRun cfg7 env7).toOption.map
        (fun res => (res.meta.map (fun m => m.pdf_url), res.errors))
      = some ([("http://a").data, ("http://c").data], [("http://b").data])) := by
  refine ⟨?_, ?_, by decide⟩
  · intro cfg env done st r url e hu hnan hdone hnet
    subst hu
    simp only [processRow, if_neg hnan, if_neg hdone, processFetch, hnet]
  · intro cfg env done st r url e bs hu hnan hdone hnet hw hex
    subst hu
    simp only [processRow, if_neg hnan, if_neg hdone, processFetch, hnet]
    simp only [hw, if_true]
    simp [hex]

theorem failure_isolation_witness :
    processRow cfgW envW [] (initState envW) [(("url").data, ("http://a").data)]
      = { initState envW with
          fetches := [("http://a").data], errors := [("http://a").data] } := by
  have h := failure_isolation.1 cfgW envW [] (initState envW)
    [(("url").data, ("http://a").data)] (("http://a").data) (("net down").data)
    (by decide) (by decide) (by decide) rfl
  rw [h]
  decide

/-! ## Lemmas about `normalize_text` on clean letter/space inputs -/

end Corpus
